import Mathlib

/-!
Shallow embedding of the bulk-waveform-acquisition core of the Rigol1000z
driver (`Rigol1000z/rigol1000z.py`) and of the command-menu prefixing layer
(`Rigol1000z/commandmenu.py`), together with theorems settling the frozen
claims about this code.

Conventions of the embedding:
* Python byte strings are `List ℕ` (one entry per byte, values 0-255 in
  practice, unconstrained in the type).
* Python floats are modelled as exact rationals `ℚ`; numpy array arithmetic
  becomes elementwise `List ℚ` arithmetic.
* The VISA transport is an oracle record (`Transport`): queries and raw
  reads return pre-determined replies, and every command write is logged.
* Python exceptions become explicit error outcomes; `get_data` always
  returns the final transport and filesystem state next to its
  `Except`-outcome, because a caller which catches an exception still
  observes that state.
-/

namespace Rigol1000z

/-! ### Python string helpers

`splitComma` models Python `str.split(',')`; `pyInt` and `pyFloat` model the
built-ins `int(s)` and `float(s)` on the ASCII decimal forms the device
emits (optional surrounding whitespace, optional sign, plain decimal
digits; for `float` also an optional fraction part and decimal exponent).
-/

/-- Python `s.split(',')`: `""` gives `[""]`, separators delimit possibly
empty fields. -/
def splitComma : List Char → List (List Char)
  | [] => [[]]
  | c :: cs =>
    if c = ',' then [] :: splitComma cs
    else
      match splitComma cs with
      | [] => [[c]]
      | g :: gs => (c :: g) :: gs

/-- Drop whitespace from both ends, as Python `str.strip()` does before
numeric conversion. -/
def trimWs (cs : List Char) : List Char :=
  ((cs.dropWhile Char.isWhitespace).reverse.dropWhile Char.isWhitespace).reverse

/-- Value of a nonempty all-digit character list; `none` otherwise. -/
def digitsVal : List Char → Option ℕ
  | [] => none
  | cs =>
    if cs.all Char.isDigit then
      some (cs.foldl (fun a c => a * 10 + (c.toNat - 48)) 0)
    else none

/-- Numeric value of a digit list (defined for all-digit input). -/
def digitsToNat (cs : List Char) : ℕ :=
  cs.foldl (fun a c => a * 10 + (c.toNat - 48)) 0

/-- Python `int(s)` on decimal literals. -/
def pyInt (s : List Char) : Option Int :=
  match trimWs s with
  | '-' :: rest => (digitsVal rest).map (fun n => -(n : Int))
  | '+' :: rest => (digitsVal rest).map (fun n => (n : Int))
  | rest => (digitsVal rest).map (fun n => (n : Int))

/-- Longest digit run at the front, and the remainder. -/
def takeDigits : List Char → List Char × List Char
  | [] => ([], [])
  | c :: cs =>
    if c.isDigit then
      match takeDigits cs with
      | (d, r) => (c :: d, r)
    else ([], c :: cs)

/-- Signed decimal integer (used for the exponent part of a float). -/
def signedDigits (cs : List Char) : Option Int :=
  match cs with
  | '-' :: rest => (digitsVal rest).map (fun n => -(n : Int))
  | '+' :: rest => (digitsVal rest).map (fun n => (n : Int))
  | rest => (digitsVal rest).map (fun n => (n : Int))

/-- Optional `e`/`E` exponent suffix; empty input means exponent 0. -/
def expPart : List Char → Option Int
  | [] => some 0
  | 'e' :: rest => signedDigits rest
  | 'E' :: rest => signedDigits rest
  | _ => none

/-- Unsigned float body: digits, optional `.digits`, optional exponent. -/
def floatCore (cs : List Char) : Option ℚ :=
  match takeDigits cs with
  | (ip, r1) =>
    match r1 with
    | '.' :: rest =>
      match takeDigits rest with
      | (fp, r2) =>
        if ip = [] ∧ fp = [] then none
        else
          (expPart r2).map (fun e =>
            ((digitsToNat (ip ++ fp) : ℚ) / (10 : ℚ) ^ fp.length) * (10 : ℚ) ^ e)
    | _ =>
      if ip = [] then none
      else (expPart r1).map (fun e => (digitsToNat ip : ℚ) * (10 : ℚ) ^ e)

/-- Python `float(s)` on decimal literals. -/
def pyFloat (s : List Char) : Option ℚ :=
  match trimWs s with
  | '-' :: rest => (floatCore rest).map (fun q => -q)
  | '+' :: rest => floatCore rest
  | rest => floatCore rest

/-! ### Preamble decoding

`_Rigol1000zChannel.get_data_premable` (rigol1000z.py lines 94-114) splits
the `:wav:pre?` reply on commas and converts fields 0-3 with `int` and
fields 4-9 with `float`.  A missing field is a Python `IndexError`, a
conversion failure a `ValueError`; both are modelled as `none`.
`PreambleContext.__init__` (commands.py lines 615-632) performs the same
conversion.  Field names follow the dictionary keys of the source. -/

structure Preamble where
  format : Int
  type : Int
  points : Int
  count : Int
  xincrement : ℚ
  xorigin : ℚ
  xreference : ℚ
  yincrement : ℚ
  yorigin : ℚ
  yreference : ℚ
deriving DecidableEq, Repr

/-- The parsing step of `get_data_premable`, applied to the raw `:wav:pre?`
reply. -/
def get_data_premable (reply : List Char) : Option Preamble := do
  let pre := splitComma reply
  let f ← (pre.get? 0).bind pyInt
  let ty ← (pre.get? 1).bind pyInt
  let pts ← (pre.get? 2).bind pyInt
  let cnt ← (pre.get? 3).bind pyInt
  let xi ← (pre.get? 4).bind pyFloat
  let xo ← (pre.get? 5).bind pyFloat
  let xr ← (pre.get? 6).bind pyFloat
  let yi ← (pre.get? 7).bind pyFloat
  let yo ← (pre.get? 8).bind pyFloat
  let yr ← (pre.get? 9).bind pyFloat
  pure ⟨f, ty, pts, cnt, xi, xo, xr, yi, yo, yr⟩

/-! ### Block planning

`get_data` (rigol1000z.py lines 142-156) computes
`num_blocks = points // 250000`, `last_block_pts = points % 250000` and
loops `for i in range(num_blocks+1)`: iterations `i < num_blocks` request
the full window `(1+i*250000, 250000*(i+1))`; the final iteration requests
`(1+num_blocks*250000, num_blocks*250000+last_block_pts)` when
`last_block_pts` is nonzero and otherwise `break`s.  Since the `break` can
only happen on the last iteration, the requests are exactly the list
below.  The claims quantify over `point_count ≥ 0`, where Python's `//`
and `%` agree with `Nat` division and modulus. -/

def max_num_pts : ℕ := 250000

/-- The ordered `(start, stop)` read-window requests of the block loop. -/
def blockRequests (points : ℕ) : List (ℕ × ℕ) :=
  let numBlocks := points / max_num_pts
  let lastBlockPts := points % max_num_pts
  (List.range numBlocks).map (fun i => (1 + i * 250000, 250000 * (i + 1))) ++
    (if lastBlockPts ≠ 0 then
      [(1 + numBlocks * 250000, numBlocks * 250000 + lastBlockPts)]
    else [])

/-! ### Frame extraction

Each raw `:wav:data?` reply is consumed as `data[11:]` (rigol1000z.py line
157): only the first 11 bytes are dropped.  Python slicing never fails, a
short buffer simply yields a short or empty result. -/

/-- `raw[11:]` applied to a raw block reply. -/
def extractFrame (raw : List ℕ) : List ℕ :=
  raw.drop 11

/-! ### Transport oracle and the acquisition pipeline -/

/-- Oracle model of the VISA resource as seen by `get_data`: a settable
timeout, a fixed reply to the preamble query, a stream of raw block
replies indexed by how many raw reads happened so far, and a log of every
command written. -/
structure Transport where
  timeout : Option ℕ
  preambleReply : List Char
  blocks : ℕ → List ℕ
  log : List String
  reads : ℕ

/-- `visa_write`: append the command to the wire log. -/
def writeCmd (tr : Transport) (cmd : String) : Transport :=
  { tr with log := tr.log ++ [cmd] }

/-- Python exceptions that can escape the modelled pipeline. -/
inductive AcqError
  /-- `assert mode in ('norm', 'raw')` failed. -/
  | assertionError
  /-- `IndexError`/`ValueError` while parsing the preamble reply. -/
  | malformedPreamble
  /-- `np.concatenate` over an empty list of chunks. -/
  | concatEmpty
  /-- `np.arange` with zero step. -/
  | zeroStep
  /-- `np.c_[t, v]` with arrays of different lengths. -/
  | shapeMismatch
deriving DecidableEq, Repr

/-- One loop iteration per planned request: write `:wav:star`/`:wav:stop`,
issue `visa_ask_raw(':wav:data?')` (one command write plus one raw read),
and keep `raw[11:]`.  Chunks are accumulated in loop order. -/
def runBlockLoop : List (ℕ × ℕ) → Transport → Transport × List (List ℕ)
  | [], tr => (tr, [])
  | r :: rs, tr =>
    let tr1 := writeCmd tr (":wav:star " ++ toString r.1)
    let tr2 := writeCmd tr1 (":wav:stop " ++ toString r.2)
    let raw := tr2.blocks tr2.reads
    let tr3 := { tr2 with log := tr2.log ++ [":wav:data?"], reads := tr2.reads + 1 }
    match runBlockLoop rs tr3 with
    | (trF, rest) => (trF, extractFrame raw :: rest)

/-- The sample bytes `get_data` ends up concatenating, expressed directly
from the initial oracle: one extracted chunk per planned request, read in
order. -/
def extractedBytes (tr : Transport) (points : ℕ) : List ℕ :=
  ((List.range (blockRequests points).length).map
    (fun k => extractFrame (tr.blocks (tr.reads + k)))).flatten

/-- The elementwise conversion `(datas - yorigin - yreference) * yincrement`
of rigol1000z.py line 162, for one raw sample code. -/
def toVoltage (pre : Preamble) (c : ℕ) : ℚ :=
  ((c : ℚ) - pre.yorigin - pre.yreference) * pre.yincrement

/-- `np.arange(0, stop, step)` over exact rationals: `none` models the
zero-step `ZeroDivisionError`, otherwise `max(ceil(stop/step), 0)` entries
`i * step`. -/
def pyArange (stop step : ℚ) : Option (List ℚ) :=
  if step = 0 then none
  else some ((List.range (max ⌈stop / step⌉ 0).toNat).map (fun (i : ℕ) => (i : ℚ) * step))

/-! ### `%.12e` formatting and `np.savetxt`

`get_data` persists with `np.savetxt(filename, np.c_[t, v], '%.12e', ',')`
(line 172): each row is the two fields formatted with `%.12e` joined by
the delimiter `','` and terminated by a newline.  The formatter is
modelled over exact rationals with round-half-to-even. -/

/-- Number of decimal digits of `n` (1 for 0). -/
def numDigits (n : ℕ) : ℕ :=
  (Nat.toDigits 10 n).length

/-- `⌊log₁₀ q⌋` for positive rational `q`, via digit counts of numerator
and denominator. -/
def e10floor (q : ℚ) : ℤ :=
  let n := q.num.toNat
  let d := q.den
  let k1 := numDigits n
  let k2 := numDigits d
  if d * 10 ^ k1 ≤ n * 10 ^ k2 then (k1 : ℤ) - k2 else (k1 : ℤ) - k2 - 1

/-- Nearest integer, ties to even. -/
def roundHalfEven (q : ℚ) : ℤ :=
  let f := ⌊q⌋
  let r := q - f
  if 1 / 2 < r then f + 1
  else if r < 1 / 2 then f
  else if f % 2 = 0 then f else f + 1

/-- C `printf("%.12e", x)` over exact rationals: sign, mantissa `d.dddddddddddd`
and a signed two-digit-minimum exponent. -/
def fmtE12 (q : ℚ) : String :=
  if q = 0 then "0.000000000000e+00"
  else
    let a := |q|
    let e0 := e10floor a
    let m0 := roundHalfEven (a * (10 : ℚ) ^ (12 - e0))
    let m := if m0 = 10 ^ 13 then (10 : ℤ) ^ 12 else m0
    let e := if m0 = 10 ^ 13 then e0 + 1 else e0
    let mantissa :=
      match Nat.toDigits 10 m.toNat with
      | [] => "0"
      | c :: rest => String.mk [c] ++ "." ++ String.mk rest
    let sign := if q < 0 then "-" else ""
    let esign := if e < 0 then "-" else "+"
    let eabs := e.natAbs
    let estr := if eabs < 10 then "0" ++ Nat.repr eabs else Nat.repr eabs
    sign ++ mantissa ++ "e" ++ esign ++ estr

/-- File content produced by `np.savetxt(filename, np.c_[t, v], '%.12e', ',')`. -/
def savetxtContent (t v : List ℚ) : String :=
  String.join ((t.zip v).map (fun p => fmtE12 p.1 ++ "," ++ fmtE12 p.2 ++ "\n"))

/-- Modelled from the spec: the §6 output-file format described by the
spec's words, with fields separated by a comma AND a space.  Used only to
compare the claimed format against the one the code produces. -/
def specCommaSpaceContent (t v : List ℚ) : String :=
  String.join ((t.zip v).map (fun p => fmtE12 p.1 ++ ", " ++ fmtE12 p.2 ++ "\n"))

/-! ### `get_data` -/

/-- Result of a `get_data` call: final transport state, final filesystem
state, and either the `(t, v)` series or the escaping exception. -/
structure AcqResult where
  tr : Transport
  fs : String → Option String
  out : Except AcqError (List ℚ × List ℚ)

/-- Tail of `get_data` after the block loop: `np.concatenate`, voltage
conversion, `np.arange` time axis, optional file write (rigol1000z.py
lines 161-174).  `os.remove` runs before `np.c_`, so a shape mismatch
still deletes a pre-existing file. -/
def afterLoop (pre : Preamble) (filename : Option String)
    (tr : Transport) (chunks : List (List ℕ))
    (fs : String → Option String) : AcqResult :=
  if chunks = [] then ⟨tr, fs, .error .concatEmpty⟩
  else
    let datas := chunks.flatten
    let v := datas.map (toVoltage pre)
    match pyArange ((pre.points.toNat : ℚ) * pre.xincrement) pre.xincrement with
    | none => ⟨tr, fs, .error .zeroStep⟩
    | some t =>
      match filename with
      | none => ⟨tr, fs, .ok (t, v)⟩
      | some fname =>
        let fs1 := fun g => if g = fname then none else fs g
        if t.length = v.length then
          ⟨tr, fun g => if g = fname then some (savetxtContent t v) else fs1 g,
            .ok (t, v)⟩
        else ⟨tr, fs1, .error .shapeMismatch⟩

/-- The five command writes `get_data` performs before reading data:
`:stop`, `:wav:sour chan<i>`, `:wav:mode <mode>`, `:wav:form byte` and the
`:wav:pre?` query (rigol1000z.py lines 135-140). -/
def setupWrites (ch : ℕ) (mode : String) (tr : Transport) : Transport :=
  writeCmd (writeCmd (writeCmd (writeCmd (writeCmd tr ":stop")
    (":wav:sour chan" ++ toString ch)) (":wav:mode " ++ mode))
    ":wav:form byte") ":wav:pre?"

/-- `_Rigol1000zChannel.get_data` (rigol1000z.py lines 116-174): assert the
mode, write the setup commands, parse the preamble, run the block loop
over the planned requests, and assemble.  `points` is converted with
`Int.toNat`; for a negative parsed point count Python's loop also runs
zero block iterations, so the observable behaviour matches. -/
def get_data (ch : ℕ) (mode : String) (filename : Option String)
    (tr : Transport) (fs : String → Option String) : AcqResult :=
  if ¬(mode = "norm" ∨ mode = "raw") then ⟨tr, fs, .error .assertionError⟩
  else
    let tr5 := setupWrites ch mode tr
    match get_data_premable tr5.preambleReply with
    | none => ⟨tr5, fs, .error .malformedPreamble⟩
    | some pre =>
      match runBlockLoop (blockRequests pre.points.toNat) tr5 with
      | (tr6, chunks) => afterLoop pre filename tr6 chunks fs

/-! ### The command-menu prefixing layer (`commandmenu.py`) -/

/-- `CommandMenu` (commandmenu.py lines 4-34) together with the wire-level
state of its VISA resource: every `write` and every `query` puts its
command string on the wire (`written`); replies come from oracles. -/
structure CommandMenu where
  cmd_hierarchy_str : String
  written : List String
  rawReply : List ℕ
  queryReply : String → String

/-- `visa_write`: prepends the hierarchy string once. -/
def CommandMenu.visa_write (m : CommandMenu) (cmd : String) : CommandMenu :=
  { m with written := m.written ++ [m.cmd_hierarchy_str ++ cmd] }

/-- `visa_ask`: `query(self.cmd_hierarchy_str + cmd)` — one prefix. -/
def CommandMenu.visa_ask (m : CommandMenu) (cmd : String) : CommandMenu × String :=
  ({ m with written := m.written ++ [m.cmd_hierarchy_str ++ cmd] },
    m.queryReply (m.cmd_hierarchy_str ++ cmd))

/-- `visa_read_raw`: no wire write, returns the raw reply oracle. -/
def CommandMenu.visa_read_raw (m : CommandMenu) (_numBytes : Int) : CommandMenu × List ℕ :=
  (m, m.rawReply)

/-- `visa_ask_raw`: `self.visa_write(self.cmd_hierarchy_str + cmd)` followed
by `visa_read_raw` — `visa_write` prepends the prefix a second time. -/
def CommandMenu.visa_ask_raw (m : CommandMenu) (cmd : String) (numBytes : Int) :
    CommandMenu × List ℕ :=
  let m1 := m.visa_write (m.cmd_hierarchy_str ++ cmd)
  m1.visa_read_raw numBytes

/-! ### Concrete fixtures used by witnesses and counterexamples -/

/-- Empty filesystem. -/
def fsNone : String → Option String := fun _ => none

/-- Filesystem in which every path already holds a file `"OLD"`. -/
def fsOld : String → Option String := fun _ => some "OLD"

/-- Oracle: preamble reports 3 points, but the single raw block carries
11 header bytes plus only 2 sample bytes. -/
def trC2 : Transport :=
  { timeout := some 5000
    preambleReply := "0,0,3,1,1.0,0.0,0.0,0.1,0.0,127.0".toList
    blocks := fun _ => [0, 0, 0, 0, 0, 0, 0, 0, 0, 0, 0, 127, 137]
    log := []
    reads := 0 }

/-- The preamble `trC2` reports. -/
def preC2 : Preamble := ⟨0, 0, 3, 1, 1, 0, 0, 1/10, 0, 127⟩

/-- Oracle: preamble reports 0 points. -/
def trC5 : Transport :=
  { timeout := some 5000
    preambleReply := "0,0,0,1,1.0,0.0,0.0,1.0,0.0,0.0".toList
    blocks := fun _ => []
    log := []
    reads := 0 }

/-- The preamble `trC5` reports. -/
def preC5 : Preamble := ⟨0, 0, 0, 1, 1, 0, 0, 1, 0, 0⟩

/-- Oracle: 3 points with raw codes 127, 137, 117 and the §8 scaling
constants. -/
def trC6 : Transport :=
  { timeout := some 5000
    preambleReply := "0,0,3,1,1.0,0.0,0.0,0.1,0.0,127.0".toList
    blocks := fun _ => [0, 0, 0, 0, 0, 0, 0, 0, 0, 0, 0, 127, 137, 117]
    log := []
    reads := 0 }

/-- The preamble `trC6` reports. -/
def preC6 : Preamble := ⟨0, 0, 3, 1, 1, 0, 0, 1/10, 0, 127⟩

/-- Oracle: preamble reports 4 points but the block carries 2 sample
bytes (codes 5 and 7; identity scaling). -/
def trC7 : Transport :=
  { timeout := some 5000
    preambleReply := "0,0,4,1,1.0,0.0,0.0,1.0,0.0,0.0".toList
    blocks := fun _ => [0, 0, 0, 0, 0, 0, 0, 0, 0, 0, 0, 5, 7]
    log := []
    reads := 0 }

/-- The preamble `trC7` reports. -/
def preC7 : Preamble := ⟨0, 0, 4, 1, 1, 0, 0, 1, 0, 0⟩

/-- Oracle: one point, raw code 127, scaling that maps it to 0 volts. -/
def trC9 : Transport :=
  { timeout := some 5000
    preambleReply := "0,0,1,1,1.0,0.0,0.0,1.0,0.0,127.0".toList
    blocks := fun _ => [0, 0, 0, 0, 0, 0, 0, 0, 0, 0, 0, 127]
    log := []
    reads := 0 }

/-- A command menu with the `:wav` hierarchy prefix and an empty wire log. -/
def menuC10 : CommandMenu := ⟨":wav", [], [], fun _ => ""⟩

/-! ### Helper lemmas: the block plan -/

lemma blockRequests_length (points : ℕ) :
    (blockRequests points).length =
      points / 250000 + (if points % 250000 ≠ 0 then 1 else 0) := by
  unfold blockRequests max_num_pts
  by_cases h : points % 250000 ≠ 0 <;> simp [h]

lemma blockRequests_get (points j : ℕ) (hj : j < (blockRequests points).length) :
    (blockRequests points).get ⟨j, hj⟩ =
      if j < points / 250000 then (1 + j * 250000, 250000 * (j + 1))
      else (1 + (points / 250000) * 250000,
            (points / 250000) * 250000 + points % 250000) := by
  have hlen := blockRequests_length points
  rcases Nat.lt_or_ge j (points / 250000) with hc | hc
  · rw [if_pos hc]
    unfold blockRequests max_num_pts
    rw [List.get_eq_getElem]
    rw [List.getElem_append_left (by simpa using hc)]
    simp
  · rw [if_neg (by omega)]
    have htl : points % 250000 ≠ 0 := by
      by_contra h0
      rw [hlen, if_neg (by simpa using h0)] at hj
      omega
    have hje : j = points / 250000 := by
      rw [hlen, if_pos htl] at hj
      omega
    unfold blockRequests max_num_pts
    rw [List.get_eq_getElem]
    rw [List.getElem_append_right (by simpa using hc)]
    simp [htl, hje]

lemma blockRequests_mem (points : ℕ) (r : ℕ × ℕ) :
    r ∈ blockRequests points ↔
      ((∃ i, i < points / 250000 ∧ r = (1 + i * 250000, 250000 * (i + 1))) ∨
       (points % 250000 ≠ 0 ∧
        r = (1 + (points / 250000) * 250000,
             (points / 250000) * 250000 + points % 250000))) := by
  unfold blockRequests max_num_pts
  by_cases h : points % 250000 ≠ 0 <;>
    simp [h, List.mem_append, List.mem_map, List.mem_range, eq_comm]

lemma blockRequests_cover (points p : ℕ) :
    (∃ r ∈ blockRequests points, r.1 ≤ p ∧ p ≤ r.2) ↔ (1 ≤ p ∧ p ≤ points) := by
  constructor
  · rintro ⟨r, hr, h1, h2⟩
    rw [blockRequests_mem] at hr
    rcases hr with ⟨i, hi, rfl⟩ | ⟨hl, rfl⟩ <;> simp only at h1 h2 <;> omega
  · rintro ⟨h1, h2⟩
    by_cases hc : (p - 1) / 250000 < points / 250000
    · refine ⟨(1 + ((p - 1) / 250000) * 250000, 250000 * ((p - 1) / 250000 + 1)),
        ?_, ?_, ?_⟩
      · rw [blockRequests_mem]
        exact Or.inl ⟨(p - 1) / 250000, hc, rfl⟩
      · simp only
        omega
      · simp only
        omega
    · refine ⟨(1 + (points / 250000) * 250000,
        (points / 250000) * 250000 + points % 250000), ?_, ?_, ?_⟩
      · rw [blockRequests_mem]
        refine Or.inr ⟨?_, rfl⟩
        omega
      · simp only
        omega
      · simp only
        omega

/-! ### Helper lemmas: the block loop and `get_data` -/

lemma runBlockLoop_timeout (reqs : List (ℕ × ℕ)) (tr : Transport) :
    (runBlockLoop reqs tr).1.timeout = tr.timeout := by
  induction reqs generalizing tr with
  | nil => rfl
  | cons r rs ih =>
    simp only [runBlockLoop, writeCmd]
    exact ih _

lemma runBlockLoop_chunks (reqs : List (ℕ × ℕ)) (tr : Transport) :
    (runBlockLoop reqs tr).2 =
      (List.range reqs.length).map (fun k => extractFrame (tr.blocks (tr.reads + k))) := by
  induction reqs generalizing tr with
  | nil => rfl
  | cons r rs ih =>
    simp only [runBlockLoop, writeCmd]
    rw [ih]
    simp only [List.length_cons, List.range_succ_eq_map, List.map_cons, List.map_map,
      List.cons.injEq]
    constructor
    · simp
    · apply List.map_congr_left
      intro k _
      have harg : tr.reads + 1 + k = tr.reads + (k + 1) := by omega
      simp [Function.comp, harg]

lemma runBlockLoop_chunks_length (reqs : List (ℕ × ℕ)) (tr : Transport) :
    (runBlockLoop reqs tr).2.length = reqs.length := by
  rw [runBlockLoop_chunks]
  simp

lemma afterLoop_tr (pre : Preamble) (filename : Option String) (tr : Transport)
    (chunks : List (List ℕ)) (fs : String → Option String) :
    (afterLoop pre filename tr chunks fs).tr = tr := by
  unfold afterLoop
  dsimp only
  split
  · rfl
  · split
    · rfl
    · split
      · rfl
      · split <;> rfl

lemma afterLoop_out_indep (pre : Preamble) (filename : Option String) (tr : Transport)
    (chunks : List (List ℕ)) (fs1 fs2 : String → Option String) :
    (afterLoop pre filename tr chunks fs1).out = (afterLoop pre filename tr chunks fs2).out := by
  unfold afterLoop
  dsimp only
  split
  · rfl
  · split
    · rfl
    · split
      · rfl
      · split <;> rfl

lemma afterLoop_ok (pre : Preamble) (filename : Option String) (tr : Transport)
    (chunks : List (List ℕ)) (fs : String → Option String) (t v : List ℚ)
    (h : (afterLoop pre filename tr chunks fs).out = .ok (t, v)) :
    pyArange ((pre.points.toNat : ℚ) * pre.xincrement) pre.xincrement = some t ∧
    v = chunks.flatten.map (toVoltage pre) ∧
    ∀ fname, filename = some fname →
      (afterLoop pre filename tr chunks fs).fs fname = some (savetxtContent t v) ∧
      t.length = v.length := by
  by_cases hc : chunks = []
  · unfold afterLoop at h
    rw [if_pos hc] at h
    exact absurd h (by simp)
  · unfold afterLoop at h ⊢
    rw [if_neg hc] at h ⊢
    dsimp only at h ⊢
    rcases ha : pyArange ((pre.points.toNat : ℚ) * pre.xincrement) pre.xincrement with _ | t0
    · rw [ha] at h
      dsimp only at h
      simp at h
    · rw [ha] at h
      dsimp only at h
      cases filename with
      | none =>
        dsimp only at h
        simp only [Except.ok.injEq, Prod.mk.injEq] at h
        obtain ⟨ht, hv⟩ := h
        subst ht
        exact ⟨rfl, hv.symm, fun fname hf => by cases hf⟩
      | some fname =>
        dsimp only at h ⊢
        by_cases hl : t0.length = (List.map (toVoltage pre) chunks.flatten).length
        · rw [if_pos hl] at h ⊢
          dsimp only at h
          simp only [Except.ok.injEq, Prod.mk.injEq] at h
          obtain ⟨ht, hv⟩ := h
          subst ht
          refine ⟨rfl, hv.symm, fun fname2 hf => ?_⟩
          obtain rfl : fname = fname2 := by injection hf
          subst hv
          simp [hl]
        · rw [if_neg hl] at h
          dsimp only at h
          simp at h

@[simp] lemma setupWrites_timeout (ch : ℕ) (mode : String) (tr : Transport) :
    (setupWrites ch mode tr).timeout = tr.timeout := rfl

@[simp] lemma setupWrites_preambleReply (ch : ℕ) (mode : String) (tr : Transport) :
    (setupWrites ch mode tr).preambleReply = tr.preambleReply := rfl

@[simp] lemma setupWrites_blocks (ch : ℕ) (mode : String) (tr : Transport) :
    (setupWrites ch mode tr).blocks = tr.blocks := rfl

@[simp] lemma setupWrites_reads (ch : ℕ) (mode : String) (tr : Transport) :
    (setupWrites ch mode tr).reads = tr.reads := rfl

lemma get_data_split (ch : ℕ) (mode : String) (filename : Option String)
    (tr : Transport) (fs : String → Option String) (pre : Preamble)
    (hm : mode = "norm" ∨ mode = "raw")
    (hd : get_data_premable tr.preambleReply = some pre) :
    get_data ch mode filename tr fs =
      afterLoop pre filename
        (runBlockLoop (blockRequests pre.points.toNat) (setupWrites ch mode tr)).1
        (runBlockLoop (blockRequests pre.points.toNat) (setupWrites ch mode tr)).2 fs := by
  unfold get_data
  rw [if_neg (not_not_intro hm)]
  dsimp only
  have hd5 : get_data_premable (setupWrites ch mode tr).preambleReply = some pre := hd
  rw [hd5]

lemma get_data_tr_timeout (ch : ℕ) (mode : String) (filename : Option String)
    (tr : Transport) (fs : String → Option String) :
    (get_data ch mode filename tr fs).tr.timeout = tr.timeout := by
  unfold get_data
  split
  · rfl
  · dsimp only
    rcases hd : get_data_premable (setupWrites ch mode tr).preambleReply with _ | pre
    · rfl
    · dsimp only
      rw [afterLoop_tr]
      simpa using runBlockLoop_timeout (blockRequests pre.points.toNat) (setupWrites ch mode tr)

lemma get_data_out_indep (ch : ℕ) (mode : String) (filename : Option String)
    (tr : Transport) (fs1 fs2 : String → Option String) :
    (get_data ch mode filename tr fs1).out = (get_data ch mode filename tr fs2).out := by
  unfold get_data
  split
  · rfl
  · dsimp only
    rcases hd : get_data_premable (setupWrites ch mode tr).preambleReply with _ | pre
    · rfl
    · dsimp only
      exact afterLoop_out_indep pre filename _ _ fs1 fs2

/-- The chunks seen by `get_data`'s assembly are exactly the extracted
bytes of the oracle, one chunk per planned request. -/
lemma get_data_chunks (ch : ℕ) (mode : String) (tr : Transport) (points : ℕ) :
    (runBlockLoop (blockRequests points) (setupWrites ch mode tr)).2.flatten =
      extractedBytes tr points := by
  rw [runBlockLoop_chunks]
  unfold extractedBytes
  simp

lemma blockRequests_ne_nil (points : ℕ) (hp : 0 < points) :
    blockRequests points ≠ [] := by
  intro h
  have hlen := blockRequests_length points
  rw [h] at hlen
  simp only [List.length_nil] at hlen
  by_cases hmod : points % 250000 ≠ 0
  · rw [if_pos hmod] at hlen
    omega
  · rw [if_neg hmod] at hlen
    push_neg at hmod
    omega

lemma pyArange_points (points : ℕ) (xinc : ℚ) (hxi : xinc ≠ 0) :
    pyArange ((points : ℚ) * xinc) xinc =
      some ((List.range points).map (fun (i : ℕ) => (i : ℚ) * xinc)) := by
  unfold pyArange
  rw [if_neg hxi]
  have hd : ((points : ℚ) * xinc) / xinc = (points : ℚ) := by
    field_simp
  rw [hd]
  norm_num

/-- A successful `get_data` run determines the time axis by `pyArange` and
the voltage list as the pointwise conversion of the extracted bytes. -/
lemma get_data_ok (ch : ℕ) (mode : String) (filename : Option String)
    (tr : Transport) (fs : String → Option String) (pre : Preamble) (t v : List ℚ)
    (hd : get_data_premable tr.preambleReply = some pre)
    (hok : (get_data ch mode filename tr fs).out = .ok (t, v)) :
    pyArange ((pre.points.toNat : ℚ) * pre.xincrement) pre.xincrement = some t ∧
    v = (extractedBytes tr pre.points.toNat).map (toVoltage pre) ∧
    ∀ fname, filename = some fname →
      (get_data ch mode filename tr fs).fs fname = some (savetxtContent t v) ∧
      t.length = v.length := by
  have hm : mode = "norm" ∨ mode = "raw" := by
    by_contra hmn
    rw [get_data, if_pos hmn] at hok
    simp at hok
  rw [get_data_split ch mode filename tr fs pre hm hd] at hok ⊢
  have := afterLoop_ok pre filename
    (runBlockLoop (blockRequests pre.points.toNat) (setupWrites ch mode tr)).1
    (runBlockLoop (blockRequests pre.points.toNat) (setupWrites ch mode tr)).2 fs t v hok
  rw [get_data_chunks] at this
  exact this

/-- With at least one planned block, a nonzero time increment and no
output file, `get_data` always succeeds — there is no sample-count check. -/
lemma get_data_ok_exists (ch : ℕ) (mode : String)
    (tr : Transport) (fs : String → Option String) (pre : Preamble)
    (hm : mode = "norm" ∨ mode = "raw")
    (hd : get_data_premable tr.preambleReply = some pre)
    (hpts : 0 < pre.points.toNat) (hxi : pre.xincrement ≠ 0) :
    (get_data ch mode none tr fs).out =
      .ok ((List.range pre.points.toNat).map (fun (i : ℕ) => (i : ℚ) * pre.xincrement),
           (extractedBytes tr pre.points.toNat).map (toVoltage pre)) := by
  rw [get_data_split ch mode none tr fs pre hm hd]
  have hchunks := runBlockLoop_chunks (blockRequests pre.points.toNat) (setupWrites ch mode tr)
  have hflat := get_data_chunks ch mode tr pre.points.toNat
  have hne : (runBlockLoop (blockRequests pre.points.toNat) (setupWrites ch mode tr)).2 ≠ [] := by
    intro h0
    have hl := runBlockLoop_chunks_length (blockRequests pre.points.toNat) (setupWrites ch mode tr)
    rw [h0] at hl
    exact blockRequests_ne_nil pre.points.toNat hpts (List.length_eq_zero.mp hl.symm)
  unfold afterLoop
  rw [if_neg hne]
  dsimp only
  rw [pyArange_points pre.points.toNat pre.xincrement hxi]
  dsimp only
  rw [hflat]

/-- With an empty block plan, `get_data` dies in `np.concatenate` and
returns no series. -/
lemma get_data_concatEmpty (ch : ℕ) (mode : String) (filename : Option String)
    (tr : Transport) (fs : String → Option String) (pre : Preamble)
    (hm : mode = "norm" ∨ mode = "raw")
    (hd : get_data_premable tr.preambleReply = some pre)
    (hp : blockRequests pre.points.toNat = []) :
    (get_data ch mode filename tr fs).out = .error .concatEmpty := by
  rw [get_data_split ch mode filename tr fs pre hm hd, hp]
  unfold runBlockLoop
  unfold afterLoop
  rw [if_pos rfl]

/-! ### Helper lemmas: preamble decoding -/

lemma get_data_premable_isSome_iff (s : List Char) :
    (get_data_premable s).isSome ↔
      ((((splitComma s).get? 0).bind pyInt).isSome ∧
       (((splitComma s).get? 1).bind pyInt).isSome ∧
       (((splitComma s).get? 2).bind pyInt).isSome ∧
       (((splitComma s).get? 3).bind pyInt).isSome ∧
       (((splitComma s).get? 4).bind pyFloat).isSome ∧
       (((splitComma s).get? 5).bind pyFloat).isSome ∧
       (((splitComma s).get? 6).bind pyFloat).isSome ∧
       (((splitComma s).get? 7).bind pyFloat).isSome ∧
       (((splitComma s).get? 8).bind pyFloat).isSome ∧
       (((splitComma s).get? 9).bind pyFloat).isSome) := by
  constructor
  · intro h
    obtain ⟨p, hp⟩ := Option.isSome_iff_exists.mp h
    unfold get_data_premable at hp
    simp only [Option.bind_eq_bind, Option.bind_eq_some, Option.pure_def,
      Option.some.injEq] at hp
    obtain ⟨a0, h0, a1, h1, a2, h2, a3, h3, a4, h4, a5, h5, a6, h6, a7, h7,
      a8, h8, a9, h9, _⟩ := hp
    exact ⟨by obtain ⟨b, hb, hpb⟩ := h0; rw [List.get?_eq_getElem?] at hb; simp [hb, hpb],
      by obtain ⟨b, hb, hpb⟩ := h1; rw [List.get?_eq_getElem?] at hb; simp [hb, hpb],
      by obtain ⟨b, hb, hpb⟩ := h2; rw [List.get?_eq_getElem?] at hb; simp [hb, hpb],
      by obtain ⟨b, hb, hpb⟩ := h3; rw [List.get?_eq_getElem?] at hb; simp [hb, hpb],
      by obtain ⟨b, hb, hpb⟩ := h4; rw [List.get?_eq_getElem?] at hb; simp [hb, hpb],
      by obtain ⟨b, hb, hpb⟩ := h5; rw [List.get?_eq_getElem?] at hb; simp [hb, hpb],
      by obtain ⟨b, hb, hpb⟩ := h6; rw [List.get?_eq_getElem?] at hb; simp [hb, hpb],
      by obtain ⟨b, hb, hpb⟩ := h7; rw [List.get?_eq_getElem?] at hb; simp [hb, hpb],
      by obtain ⟨b, hb, hpb⟩ := h8; rw [List.get?_eq_getElem?] at hb; simp [hb, hpb],
      by obtain ⟨b, hb, hpb⟩ := h9; rw [List.get?_eq_getElem?] at hb; simp [hb, hpb]⟩
  · rintro ⟨h0, h1, h2, h3, h4, h5, h6, h7, h8, h9⟩
    obtain ⟨a0, h0⟩ := Option.isSome_iff_exists.mp h0
    obtain ⟨a1, h1⟩ := Option.isSome_iff_exists.mp h1
    obtain ⟨a2, h2⟩ := Option.isSome_iff_exists.mp h2
    obtain ⟨a3, h3⟩ := Option.isSome_iff_exists.mp h3
    obtain ⟨a4, h4⟩ := Option.isSome_iff_exists.mp h4
    obtain ⟨a5, h5⟩ := Option.isSome_iff_exists.mp h5
    obtain ⟨a6, h6⟩ := Option.isSome_iff_exists.mp h6
    obtain ⟨a7, h7⟩ := Option.isSome_iff_exists.mp h7
    obtain ⟨a8, h8⟩ := Option.isSome_iff_exists.mp h8
    obtain ⟨a9, h9⟩ := Option.isSome_iff_exists.mp h9
    unfold get_data_premable
    dsimp only
    rw [h0, h1, h2, h3, h4, h5, h6, h7, h8, h9]
    rfl

lemma splitComma_long_of_premable (s : List Char)
    (h : (get_data_premable s).isSome) : 10 ≤ (splitComma s).length := by
  have h9 := ((get_data_premable_isSome_iff s).mp h).2.2.2.2.2.2.2.2.2
  by_contra hlt
  push_neg at hlt
  rw [List.get?_eq_none.mpr (by omega)] at h9
  simp at h9

/-! ### Claim theorems -/

/-- C1: for every `point_count ≥ 0` with the fixed maximum block size
250000, the read-window requests of `get_data`'s block loop have
nonempty ranges, are contiguous (each next start is the previous stop
plus one), non-overlapping and ascending, and their union of 1-based
inclusive ranges is exactly `[1, point_count]`; for 600000 points the
requests are exactly `[1,250000], [250001,500000], [500001,600000]`. -/
theorem claim1_block_plan (points : ℕ) :
    (∀ r ∈ blockRequests points, r.1 ≤ r.2) ∧
    (∀ (k : ℕ) (hk : k + 1 < (blockRequests points).length),
      ((blockRequests points).get ⟨k, by omega⟩).2 + 1 =
        ((blockRequests points).get ⟨k + 1, hk⟩).1) ∧
    (∀ (k l : ℕ) (hk : k < (blockRequests points).length)
        (hl : l < (blockRequests points).length), k < l →
      ((blockRequests points).get ⟨k, hk⟩).2 <
        ((blockRequests points).get ⟨l, hl⟩).1) ∧
    (∀ p : ℕ, (∃ r ∈ blockRequests points, r.1 ≤ p ∧ p ≤ r.2) ↔
      1 ≤ p ∧ p ≤ points) ∧
    blockRequests 600000 = [(1, 250000), (250001, 500000), (500001, 600000)] := by
  have hlen := blockRequests_length points
  refine ⟨?_, ?_, ?_, fun p => blockRequests_cover points p, by decide⟩
  · intro r hr
    rw [blockRequests_mem] at hr
    rcases hr with ⟨i, hi, rfl⟩ | ⟨hl, rfl⟩ <;> simp only <;> omega
  · intro k hk
    rw [blockRequests_get, blockRequests_get]
    by_cases hmod : points % 250000 ≠ 0 <;>
      [rw [if_pos hmod] at hlen; rw [if_neg hmod] at hlen] <;>
      [skip; push_neg at hmod] <;> split_ifs <;> omega
  · intro k l hk hl hkl
    rw [blockRequests_get, blockRequests_get]
    by_cases hmod : points % 250000 ≠ 0 <;>
      [rw [if_pos hmod] at hlen; rw [if_neg hmod] at hlen] <;>
      [skip; push_neg at hmod] <;> split_ifs <;> omega

/-- Witness for C1 at `point_count = 600000`: point 300000 is covered,
and block 0 ends strictly before block 2 starts. -/
theorem claim1_block_plan_witness :
    (∃ r ∈ blockRequests 600000, r.1 ≤ 300000 ∧ 300000 ≤ r.2) ∧
    ((blockRequests 600000).get ⟨0, by decide⟩).2 <
      ((blockRequests 600000).get ⟨2, by decide⟩).1 := by
  refine ⟨((claim1_block_plan 600000).2.2.2.1 300000).mpr (by decide), ?_⟩
  exact (claim1_block_plan 600000).2.2.1 0 2 (by decide) (by decide) (by decide)

/-- C3 counterexample: frame extraction keeps the final byte (a 13-byte
raw block yields the 2-byte payload `[42, 99]`, not `[42]`), and a raw
block shorter than `header_len + 1 = 12` yields an empty payload instead
of failing. -/
theorem claim3_counterexample :
    extractFrame [0, 1, 2, 3, 4, 5, 6, 7, 8, 9, 10, 42, 99] = [42, 99] ∧
    extractFrame [0, 1, 2] = [] :=
  ⟨rfl, rfl⟩

/-- C3 amended: the frame-extraction step removes exactly the first 11
header bytes and nothing else — the final byte is kept, every payload
byte is the corresponding raw byte shifted by 11, and a short raw block
produces a short or empty payload with no error. -/
theorem claim3_amended (raw : List ℕ) :
    (extractFrame raw).length = raw.length - 11 ∧
    ∀ (i : ℕ) (hi : i < (extractFrame raw).length) (hr : 11 + i < raw.length),
      (extractFrame raw).get ⟨i, hi⟩ = raw.get ⟨11 + i, hr⟩ := by
  constructor
  · simp [extractFrame]
  · intro i hi hr
    simp [extractFrame, List.get_eq_getElem, List.getElem_drop]

/-- Witness for C3 amended on a concrete 13-byte raw block. -/
theorem claim3_amended_witness :
    (extractFrame [0, 1, 2, 3, 4, 5, 6, 7, 8, 9, 10, 7, 8]).get ⟨1, by decide⟩ =
      [0, 1, 2, 3, 4, 5, 6, 7, 8, 9, 10, 7, 8].get ⟨12, by decide⟩ :=
  (claim3_amended [0, 1, 2, 3, 4, 5, 6, 7, 8, 9, 10, 7, 8]).2 1 (by decide) (by decide)

/-- C4: on every exit path of `get_data` — success or any modelled
component failure — the transport's timeout after the call equals the
timeout before the call (`get_data` never writes the timeout). -/
theorem claim4_timeout_restored (ch : ℕ) (mode : String) (filename : Option String)
    (tr : Transport) (fs : String → Option String) :
    (get_data ch mode filename tr fs).tr.timeout = tr.timeout :=
  get_data_tr_timeout ch mode filename tr fs

/-- C10: `visa_ask_raw` puts the hierarchy prefix on the wire twice,
while `visa_write` and `visa_ask` put it exactly once. -/
theorem claim10_prefix_duplication (m : CommandMenu) (cmd : String)
    (_hne : m.cmd_hierarchy_str ≠ "") :
    (m.visa_ask_raw cmd (-1)).1.written =
      m.written ++ [m.cmd_hierarchy_str ++ (m.cmd_hierarchy_str ++ cmd)] ∧
    (m.visa_write cmd).written = m.written ++ [m.cmd_hierarchy_str ++ cmd] ∧
    (m.visa_ask cmd).1.written = m.written ++ [m.cmd_hierarchy_str ++ cmd] := by
  exact ⟨rfl, rfl, rfl⟩

/-- Witness for C10 on the `:wav` menu. -/
theorem claim10_prefix_duplication_witness :
    (menuC10.visa_ask_raw ":data?" (-1)).1.written =
      menuC10.written ++
        [menuC10.cmd_hierarchy_str ++ (menuC10.cmd_hierarchy_str ++ ":data?")] ∧
    (menuC10.visa_write ":data?").written =
      menuC10.written ++ [menuC10.cmd_hierarchy_str ++ ":data?"] ∧
    (menuC10.visa_ask ":data?").1.written =
      menuC10.written ++ [menuC10.cmd_hierarchy_str ++ ":data?"] :=
  claim10_prefix_duplication menuC10 ":data?" (by decide)

/-- C2 counterexample: the preamble reports 3 points but only 2 sample
bytes arrive, yet `get_data` succeeds and returns a series — there is no
`SampleCountMismatch` check. -/
theorem claim2_counterexample :
    get_data_premable trC2.preambleReply = some preC2 ∧
    preC2.points = 3 ∧
    (extractedBytes trC2 3).length = 2 ∧
    (get_data 1 "norm" none trC2 fsNone).out = .ok ([0, 1, 2], [0, 1]) := by
  refine ⟨by with_unfolding_all rfl, rfl, by rfl, by with_unfolding_all rfl⟩

/-- C2 amended: the assembly step performs no sample-count check — with a
nonzero point count, a nonzero time increment and no output file,
`get_data` always succeeds, and the voltage series has the length of the
total extracted sample bytes, whether or not that equals `points`. -/
theorem claim2_amended (ch : ℕ) (mode : String) (tr : Transport)
    (fs : String → Option String) (pre : Preamble)
    (hm : mode = "norm" ∨ mode = "raw")
    (hd : get_data_premable tr.preambleReply = some pre)
    (hpts : 0 < pre.points.toNat) (hxi : pre.xincrement ≠ 0) :
    ∃ t v, (get_data ch mode none tr fs).out = .ok (t, v) ∧
      v.length = (extractedBytes tr pre.points.toNat).length := by
  refine ⟨_, _, get_data_ok_exists ch mode tr fs pre hm hd hpts hxi, ?_⟩
  simp

/-- Witness for C2 amended at the `trC2` oracle. -/
theorem claim2_amended_witness :
    ∃ t v, (get_data 1 "norm" none trC2 fsNone).out = .ok (t, v) ∧
      v.length = (extractedBytes trC2 preC2.points.toNat).length :=
  claim2_amended 1 "norm" trC2 fsNone preC2 (Or.inl rfl)
    (by with_unfolding_all rfl) (by decide) (by with_unfolding_all decide)

/-- C5 counterexample: with a 0-point preamble the block plan is empty,
but `get_data` raises (`np.concatenate` of an empty list) instead of
returning an empty series. -/
theorem claim5_counterexample :
    get_data_premable trC5.preambleReply = some preC5 ∧
    preC5.points = 0 ∧
    blockRequests 0 = [] ∧
    (get_data 1 "norm" none trC5 fsNone).out = .error .concatEmpty := by
  refine ⟨by with_unfolding_all rfl, rfl, rfl, by with_unfolding_all rfl⟩

/-- C5 amended: when the preamble reports `point_count = 0` the block
plan is empty and no read-window request is issued, but `get_data` does
not complete normally: it fails with the empty-concatenation error
instead of returning two empty sequences. -/
theorem claim5_amended (ch : ℕ) (mode : String) (filename : Option String)
    (tr : Transport) (fs : String → Option String) (pre : Preamble)
    (hm : mode = "norm" ∨ mode = "raw")
    (hd : get_data_premable tr.preambleReply = some pre)
    (hp : pre.points = 0) :
    blockRequests pre.points.toNat = [] ∧
    (get_data ch mode filename tr fs).out = .error .concatEmpty := by
  have hbr : blockRequests pre.points.toNat = [] := by
    rw [hp]
    rfl
  exact ⟨hbr, get_data_concatEmpty ch mode filename tr fs pre hm hd hbr⟩

/-- Witness for C5 amended at the `trC5` oracle. -/
theorem claim5_amended_witness :
    blockRequests preC5.points.toNat = [] ∧
    (get_data 1 "norm" none trC5 fsNone).out = .error .concatEmpty :=
  claim5_amended 1 "norm" none trC5 fsNone preC5 (Or.inl rfl)
    (by with_unfolding_all rfl) rfl

/-- C6: in every successful `get_data` run the voltage list is the
pointwise conversion `(c − y_origin − y_reference) × y_increment` of the
extracted raw codes, and with `y_increment = 1/10`, `y_origin = 0`,
`y_reference = 127` the codes 127, 137, 117 give 0, 1 and −1 volts. -/
theorem claim6_voltage_formula (ch : ℕ) (mode : String) (tr : Transport)
    (fs : String → Option String) (pre : Preamble) (t v : List ℚ)
    (hd : get_data_premable tr.preambleReply = some pre)
    (hok : (get_data ch mode none tr fs).out = .ok (t, v)) :
    v = (extractedBytes tr pre.points.toNat).map
        (fun (c : ℕ) => ((c : ℚ) - pre.yorigin - pre.yreference) * pre.yincrement) ∧
    [127, 137, 117].map (toVoltage preC6) = [0, 1, -1] := by
  refine ⟨(get_data_ok ch mode none tr fs pre t v hd hok).2.1, ?_⟩
  with_unfolding_all decide

/-- Witness for C6 at the `trC6` oracle: the run returns exactly the
voltages 0, 1, −1. -/
theorem claim6_voltage_formula_witness :
    ([0, 1, -1] : List ℚ) = (extractedBytes trC6 preC6.points.toNat).map
      (fun (c : ℕ) => ((c : ℚ) - preC6.yorigin - preC6.yreference) * preC6.yincrement) ∧
    [127, 137, 117].map (toVoltage preC6) = [0, 1, -1] :=
  claim6_voltage_formula 1 "norm" trC6 fsNone preC6 [0, 1, 2] [0, 1, -1]
    (by with_unfolding_all rfl) (by with_unfolding_all rfl)

/-- C7 counterexample: a successful run in which the preamble reports 4
points but the voltage array has length 2 — the output arrays do not
both have length `point_count` unconditionally. -/
theorem claim7_counterexample :
    get_data_premable trC7.preambleReply = some preC7 ∧
    preC7.points = 4 ∧
    (get_data 1 "norm" none trC7 fsNone).out = .ok ([0, 1, 2, 3], [5, 7]) ∧
    ([5, 7] : List ℚ).length ≠ 4 := by
  refine ⟨by with_unfolding_all rfl, rfl, by with_unfolding_all rfl, by decide⟩

/-- C7 amended: in every successful `get_data` run the time axis has
length exactly `point_count` with `t[i] = i × x_increment` (starting at
zero, ignoring `x_origin`/`x_reference`), while the voltage array has
the length of the extracted sample bytes, which need not equal
`point_count`. -/
theorem claim7_amended (ch : ℕ) (mode : String) (tr : Transport)
    (fs : String → Option String) (pre : Preamble) (t v : List ℚ)
    (hd : get_data_premable tr.preambleReply = some pre)
    (hok : (get_data ch mode none tr fs).out = .ok (t, v)) :
    t.length = pre.points.toNat ∧
    (∀ (i : ℕ) (hi : i < t.length), t.get ⟨i, hi⟩ = (i : ℚ) * pre.xincrement) ∧
    v.length = (extractedBytes tr pre.points.toNat).length := by
  obtain ⟨ha, hv, _⟩ := get_data_ok ch mode none tr fs pre t v hd hok
  have hxi : pre.xincrement ≠ 0 := by
    intro h0
    rw [pyArange, if_pos h0] at ha
    cases ha
  rw [pyArange_points pre.points.toNat pre.xincrement hxi] at ha
  injection ha with ht
  subst ht
  refine ⟨by simp, ?_, by rw [hv]; simp⟩
  intro i hi
  simp

/-- Witness for C7 amended at the `trC7` oracle. -/
theorem claim7_amended_witness :
    ([0, 1, 2, 3] : List ℚ).get ⟨2, by decide⟩ = (2 : ℚ) * preC7.xincrement ∧
    ([5, 7] : List ℚ).length = (extractedBytes trC7 preC7.points.toNat).length := by
  have h := claim7_amended 1 "norm" trC7 fsNone preC7 [0, 1, 2, 3] [5, 7]
    (by with_unfolding_all rfl) (by with_unfolding_all rfl)
  exact ⟨h.2.1 2 (by decide), h.2.2⟩

/-- C8 counterexample: a reply with 11 comma-separated fields — not 10 —
is decoded successfully, the surplus field being ignored. -/
theorem claim8_counterexample :
    (splitComma "0,0,3,1,1.0,0.0,0.0,0.1,0.0,127.0,99".toList).length = 11 ∧
    get_data_premable "0,0,3,1,1.0,0.0,0.0,0.1,0.0,127.0,99".toList =
      some ⟨0, 0, 3, 1, 1, 0, 0, 1/10, 0, 127⟩ := by
  refine ⟨by rfl, by with_unfolding_all rfl⟩

/-- C8 amended: the preamble decoder succeeds exactly when the
comma-separated reply has at least 10 fields whose first four parse as
Python integers and whose fields five to ten parse as Python floats;
surplus fields are ignored, and it fails when there are fewer than 10
fields or one of the first ten fails its numeric parse. -/
theorem claim8_amended (s : List Char) :
    (get_data_premable s).isSome ↔
      (10 ≤ (splitComma s).length ∧
       (((splitComma s).get? 0).bind pyInt).isSome ∧
       (((splitComma s).get? 1).bind pyInt).isSome ∧
       (((splitComma s).get? 2).bind pyInt).isSome ∧
       (((splitComma s).get? 3).bind pyInt).isSome ∧
       (((splitComma s).get? 4).bind pyFloat).isSome ∧
       (((splitComma s).get? 5).bind pyFloat).isSome ∧
       (((splitComma s).get? 6).bind pyFloat).isSome ∧
       (((splitComma s).get? 7).bind pyFloat).isSome ∧
       (((splitComma s).get? 8).bind pyFloat).isSome ∧
       (((splitComma s).get? 9).bind pyFloat).isSome) := by
  constructor
  · intro h
    exact ⟨splitComma_long_of_premable s h, (get_data_premable_isSome_iff s).mp h⟩
  · rintro ⟨-, hrest⟩
    exact (get_data_premable_isSome_iff s).mpr hrest

/-- Witness for C8 amended on a well-formed 10-field reply. -/
theorem claim8_amended_witness :
    (get_data_premable "0,0,3,1,1.0,0.0,0.0,0.1,0.0,127.0".toList).isSome :=
  (claim8_amended "0,0,3,1,1.0,0.0,0.0,0.1,0.0,127.0".toList).mpr
    (by with_unfolding_all decide)

lemma get_data_fs_of_ok (ch : ℕ) (mode : String) (fname : String)
    (tr : Transport) (fs : String → Option String) (t v : List ℚ)
    (hok : (get_data ch mode (some fname) tr fs).out = .ok (t, v)) :
    (get_data ch mode (some fname) tr fs).fs fname = some (savetxtContent t v) ∧
    t.length = v.length := by
  by_cases hm : mode = "norm" ∨ mode = "raw"
  · rcases hdec : get_data_premable tr.preambleReply with _ | pre
    · rw [get_data, if_neg (not_not_intro hm)] at hok
      dsimp only at hok
      rw [show get_data_premable (setupWrites ch mode tr).preambleReply = none
        from hdec] at hok
      simp at hok
    · exact (get_data_ok ch mode (some fname) tr fs pre t v hdec hok).2.2 fname rfl
  · rw [get_data, if_pos (by simpa using hm)] at hok
    simp at hok

/-- C9 counterexample: the file row produced for the one-sample series
`t = [0]`, `v = [0]` separates the two fields with a bare comma, not the
comma-and-space format the claim describes. -/
theorem claim9_counterexample :
    (get_data 1 "norm" (some "wave.csv") trC9 fsOld).fs "wave.csv" =
      some "0.000000000000e+00,0.000000000000e+00\n" ∧
    specCommaSpaceContent [0] [0] = "0.000000000000e+00, 0.000000000000e+00\n" ∧
    ("0.000000000000e+00,0.000000000000e+00\n" : String) ≠
      "0.000000000000e+00, 0.000000000000e+00\n" := by
  refine ⟨by with_unfolding_all rfl, by with_unfolding_all rfl, by decide⟩

/-- C9 amended: when `get_data` is given a filename and succeeds, the
written file holds one newline-terminated row per sample with the time
and voltage fields in `%.12e` scientific format separated by a bare
comma (no space) and no header row, and the written content does not
depend on what was previously stored at the path (overwrite, not
append). -/
theorem claim9_amended (ch : ℕ) (mode : String) (fname : String)
    (tr : Transport) (fs : String → Option String) (t v : List ℚ)
    (hok : (get_data ch mode (some fname) tr fs).out = .ok (t, v)) :
    (get_data ch mode (some fname) tr fs).fs fname =
      some (String.join ((t.zip v).map
        (fun p => fmtE12 p.1 ++ "," ++ fmtE12 p.2 ++ "\n"))) ∧
    t.length = v.length ∧
    ∀ fs2, (get_data ch mode (some fname) tr fs2).fs fname =
      (get_data ch mode (some fname) tr fs).fs fname := by
  obtain ⟨hw, hlen⟩ := get_data_fs_of_ok ch mode fname tr fs t v hok
  refine ⟨hw, hlen, fun fs2 => ?_⟩
  have hout2 : (get_data ch mode (some fname) tr fs2).out = .ok (t, v) := by
    rw [get_data_out_indep ch mode (some fname) tr fs2 fs]
    exact hok
  obtain ⟨hw2, -⟩ := get_data_fs_of_ok ch mode fname tr fs2 t v hout2
  rw [hw2, hw]

/-- Witness for C9 amended at the `trC9` oracle, starting from a
filesystem where the path already holds a file. -/
theorem claim9_amended_witness :
    (get_data 1 "norm" (some "wave.csv") trC9 fsOld).fs "wave.csv" =
      some (String.join ((([0] : List ℚ).zip ([0] : List ℚ)).map
        (fun p => fmtE12 p.1 ++ "," ++ fmtE12 p.2 ++ "\n"))) ∧
    (get_data 1 "norm" (some "wave.csv") trC9 fsNone).fs "wave.csv" =
      (get_data 1 "norm" (some "wave.csv") trC9 fsOld).fs "wave.csv" := by
  have h := claim9_amended 1 "norm" "wave.csv" trC9 fsOld [0] [0]
    (by with_unfolding_all rfl)
  exact ⟨h.1, h.2.2 fsNone⟩

end Rigol1000z
